import Mathlib

/-!
Verification of the view-controller coordinate and scroll arithmetic of
inspectrum's `PlotView` (src/plotview.cpp), shallowly embedded in Lean.

Machine integers (`int`, `off_t`) are modelled as `Int`; C++ `/` on
integers truncates toward zero, which `cppDiv` reproduces.  Qt scrollbar
range/value updates follow the documented semantics of
`QAbstractSlider::setRange/setValue/setMinimum/setMaximum` (setting the
maximum lowers the minimum when needed, and the value is re-bounded into
the range).  A C++ integer division whose divisor is zero is undefined
behaviour; operations that can reach such a division are embedded as
`Option`-valued, returning `none` exactly when a zero divisor occurs.
-/

/-- C++ integer division: truncation toward zero (Lean's `/` on `Int`
is Euclidean division, so negative dividends need the sign flip). -/
def cppDiv (a b : Int) : Int := if 0 ≤ a then a / b else -((-a) / b)

/-- `range_t<T>` (range.h). Modelled from the spec: range.h is not in the
source tree; per §3 a sample range is an ordered pair with
`length() = maximum - minimum`. -/
structure range_t where
  minimum : Int
  maximum : Int
deriving DecidableEq, Repr

/-- `range_t::length()`. Modelled from the spec (§3): `maximum - minimum`. -/
def range_t.length (r : range_t) : Int := r.maximum - r.minimum

/-- The sample index at the center of a range (used to state the
recentering law of §8): minimum plus half the length, in C++ integer
arithmetic. -/
def range_t.center (r : range_t) : Int := r.minimum + cppDiv r.length 2

/-- A `QScrollBar` (`QAbstractSlider`) as used by `PlotView`. -/
structure ScrollBar where
  minimum : Int
  maximum : Int
  value : Int
  singleStep : Int
  pageStep : Int
deriving DecidableEq, Repr

/-- `QAbstractSlider::setRange(min, max)`: the stored maximum is
`qMax(min, max)` and the value is re-bounded into the new range. -/
def ScrollBar.setRange (sb : ScrollBar) (mn mx : Int) : ScrollBar :=
  let mx' := max mn mx
  { sb with minimum := mn, maximum := mx', value := max mn (min sb.value mx') }

/-- `QAbstractSlider::setMaximum(max)`: `setRange(qMin(minimum, max), max)` —
the minimum is adjusted downward if necessary to keep the range valid. -/
def ScrollBar.setMaximum (sb : ScrollBar) (mx : Int) : ScrollBar :=
  sb.setRange (min sb.minimum mx) mx

/-- `QAbstractSlider::setMinimum(min)`: `setRange(min, qMax(maximum, min))`. -/
def ScrollBar.setMinimum (sb : ScrollBar) (mn : Int) : ScrollBar :=
  sb.setRange mn (max sb.maximum mn)

/-- `QAbstractSlider::setValue(v)`: `value = qBound(minimum, v, maximum)`. -/
def ScrollBar.setValue (sb : ScrollBar) (v : Int) : ScrollBar :=
  { sb with value := max sb.minimum (min v sb.maximum) }

/-- The state of a `PlotView` (plotview.cpp / plotview.h).  The
selection overlay (`Cursors`, cursors.cpp not in the source tree) is
modelled from the spec (§4.4) as its stored pixel-space selection plus a
segment count; `viewport()->rect()` is `(0, 0, width, viewportHeight)`;
`mainSampleSource` contributes its `count()` and `rate()`; the plots
contribute their `height()`s. -/
structure PlotView where
  hScroll : ScrollBar
  vScroll : ScrollBar
  viewRange : range_t
  selectedSamples : range_t
  cursorSelection : range_t
  cursorsEnabled : Bool
  cursorSegments : Int
  fftSize : Int
  zoomLevel : Int
  width : Int
  viewportHeight : Int
  plotHeights : List Int
  sampleCount : Int
  sampleRate : ℚ
deriving DecidableEq, Repr

/-- `PlotView::samplesPerLine()`: `fftSize / zoomLevel` (C++ division). -/
def samplesPerLine (st : PlotView) : Int := cppDiv st.fftSize st.zoomLevel

/-- `PlotView::plotsHeight()`: sum of the plots' heights. -/
def plotsHeight (st : PlotView) : Int := st.plotHeights.sum

/-- The straight-line body of `PlotView::updateView(reCenter)`
(plotview.cpp lines 261-293), assuming its divisions are defined:
recompute `viewRange` from the current scroll value; if `reCenter`, bump
the scroll value by half the view-length change (Qt bounds the value);
update the horizontal and vertical scrollbar maxima; re-derive the pixel
cursor selection from `selectedSamples` and the (possibly re-bounded)
scroll value. -/
def updateViewBody (st : PlotView) (reCenter : Bool) : PlotView :=
  let m := samplesPerLine st
  let viewRange' : range_t := ⟨st.hScroll.value, st.hScroll.value + st.width * m⟩
  let hs1 := if reCenter then
      st.hScroll.setValue (st.hScroll.value + cppDiv (st.viewRange.length - viewRange'.length) 2)
    else st.hScroll
  let hs2 := hs1.setMaximum (st.sampleCount - (st.width - 1) * m)
  let vs2 := st.vScroll.setMaximum (max 0 (plotsHeight st - st.viewportHeight))
  let newSel : range_t :=
    ⟨cppDiv (st.selectedSamples.minimum - hs2.value) m,
     cppDiv (st.selectedSamples.maximum - hs2.value) m⟩
  { st with viewRange := viewRange', hScroll := hs2, vScroll := vs2, cursorSelection := newSel }

/-- `PlotView::updateView`: the divisions by `zoomLevel` (line 253) and by
`samplesPerLine()` (lines 286-287) are undefined behaviour when the
divisor is zero, so the embedding yields `none` exactly then. -/
def updateView (st : PlotView) (reCenter : Bool) : Option PlotView :=
  if st.zoomLevel = 0 ∨ samplesPerLine st = 0 then none
  else some (updateViewBody st reCenter)

/-- `PlotView::cursorsMoved()` (lines 88-99): re-derive the absolute
selection from the overlay's pixel selection, the scroll value and
`samplesPerLine()`; the second component is the `selectionTime` emitted
through `timeSelectionChanged`, modelled in exact rational arithmetic. -/
def cursorsMoved (st : PlotView) : PlotView × ℚ :=
  let sel : range_t :=
    ⟨st.hScroll.value + st.cursorSelection.minimum * samplesPerLine st,
     st.hScroll.value + st.cursorSelection.maximum * samplesPerLine st⟩
  let st' := { st with selectedSamples := sel }
  (st', (sel.length : ℚ) / st.sampleRate)

/-- `PlotView::enableCursors(enabled)` (lines 101-109): when enabling,
the pixel selection becomes the middle third of the viewport rectangle
(`rect().left() = 0`, `rect().right() = width - 1` in Qt). -/
def enableCursors (st : PlotView) (enabled : Bool) : PlotView :=
  let st1 := { st with cursorsEnabled := enabled }
  if enabled then
    let margin := cppDiv st.width 3
    { st1 with cursorSelection := ⟨0 + margin, (st.width - 1) - margin⟩ }
  else st1

/-- `PlotView::setCursorSegments(segments)` (lines 167-172): store the
segment count in the overlay, then run `cursorsMoved()`. -/
def setCursorSegments (st : PlotView) (segments : Int) : PlotView × ℚ :=
  cursorsMoved { st with cursorSegments := segments }

/-- `PlotView::invalidateEvent()` (lines 156-160): reset the horizontal
scroll bounds from the source's current count. -/
def invalidateEvent (st : PlotView) : PlotView :=
  { st with hScroll := (st.hScroll.setMinimum 0).setMaximum st.sampleCount }

/-- `PlotView::setFFTAndZoom(size, zoom)` (lines 174-191): store the new
parameters, update the scroll steps (`size*10/zoom`, `size*100/zoom` —
undefined behaviour when `zoom = 0`), then `updateView(true)`. -/
def setFFTAndZoom (st : PlotView) (size zoom : Int) : Option PlotView :=
  if zoom = 0 then none
  else
    let hs := { st.hScroll with singleStep := cppDiv (size * 10) zoom,
                                pageStep := cppDiv (size * 100) zoom }
    let st1 := { st with fftSize := size, zoomLevel := zoom, hScroll := hs }
    updateView st1 true

/-- The sample under the horizontal pixel midpoint of the viewport
(pixel column `width / 2`), used to state the recentering law: the
column-to-sample map of `cursorsMoved` is `value + column * samplesPerLine`. -/
def midSample (st : PlotView) : Int :=
  st.hScroll.value + cppDiv st.width 2 * samplesPerLine st

/-- A plot as the input-routing loop of `PlotView::eventFilter` sees it:
its `height()` and whether its `mouseEvent` consumes a pointer event
arriving at a given local vertical coordinate (the horizontal coordinate
is passed through unchanged and does not affect the routing protocol). -/
structure PlotStub where
  height : Int
  consumes : Int → Bool

/-- Fallback plot used by `List.getD` when stating routing properties. -/
def dummyPlot : PlotStub := ⟨0, fun _ => false⟩

/-- Outcome of routing one pointer event. -/
inductive MouseRoute where
  | overlay : MouseRoute
  | plot (index : Nat) (localY : Int) : MouseRoute
  | unconsumed : MouseRoute
deriving DecidableEq, Repr

/-- The plot loop of `PlotView::eventFilter` (lines 123-138): with the
running offset `plotY` starting at `a`, offer the event to each plot at
translated coordinate `y - plotY`, stop at the first plot that consumes
it, and advance `plotY` by the plot's height. -/
def dispatchPlots : List PlotStub → Int → Int → Option (Nat × Int)
  | [], _, _ => none
  | p :: rest, y, a =>
    if p.consumes (y - a) then some (0, y - a)
    else (dispatchPlots rest y (a + p.height)).map fun q => (q.1 + 1, q.2)

/-- `PlotView::eventFilter` for a pointer press/move/release at vertical
viewport coordinate `y` (lines 111-139): the cursor overlay gets first
refusal, then the plot loop runs with `plotY` initialised to minus the
vertical scroll value (line 123). -/
def eventFilterMouse (overlay : Int → Bool) (vScrollValue : Int)
    (plots : List PlotStub) (y : Int) : MouseRoute :=
  if overlay y then .overlay
  else match dispatchPlots plots y (-vScrollValue) with
       | some (i, ly) => .plot i ly
       | none => .unconsumed

/-- The routing rule as C6 words it: identical, except that the local
vertical coordinate is obtained by subtracting both the cumulative
height of preceding plots and the vertical scroll, which corresponds to
starting the plot loop at `plotY = vScrollValue`. -/
def eventFilterMouseClaimed (overlay : Int → Bool) (vScrollValue : Int)
    (plots : List PlotStub) (y : Int) : MouseRoute :=
  if overlay y then .overlay
  else match dispatchPlots plots y vScrollValue with
       | some (i, ly) => .plot i ly
       | none => .unconsumed

/-- Cumulative height of the plots preceding index `i` in stacking order. -/
def cumHeight (plots : List PlotStub) (i : Nat) : Int :=
  ((plots.take i).map PlotStub.height).sum

theorem cumHeight_zero (plots : List PlotStub) : cumHeight plots 0 = 0 := rfl

theorem cumHeight_cons_succ (p : PlotStub) (rest : List PlotStub) (i : Nat) :
    cumHeight (p :: rest) (i + 1) = p.height + cumHeight rest i := by
  simp [cumHeight]

theorem cppDiv_mul_bound (n m : Int) (hm : 0 < m) : |cppDiv n m * m - n| < m := by
  unfold cppDiv
  split
  · have h := Int.ediv_add_emod n m
    have hc : n / m * m = m * (n / m) := mul_comm _ _
    have h0 : 0 ≤ n % m := Int.emod_nonneg n (by omega)
    have h1 : n % m < m := Int.emod_lt_of_pos n hm
    have he : n / m * m - n = -(n % m) := by linarith
    rw [he, abs_neg, abs_of_nonneg h0]
    exact h1
  · have h := Int.ediv_add_emod (-n) m
    have hc : (-n) / m * m = m * ((-n) / m) := mul_comm _ _
    have h0 : 0 ≤ (-n) % m := Int.emod_nonneg (-n) (by omega)
    have h1 : (-n) % m < m := Int.emod_lt_of_pos (-n) hm
    have he : -((-n) / m) * m - n = (-n) % m := by linarith [neg_mul ((-n) / m) m]
    rw [he, abs_of_nonneg h0]
    exact h1

theorem cppDiv_two_le (n : Int) : n - 1 ≤ 2 * cppDiv n 2 ∧ 2 * cppDiv n 2 ≤ n + 1 := by
  unfold cppDiv
  split <;> omega

theorem cppDiv_two_of_nonneg (n : Int) (h : 0 ≤ n) :
    2 * cppDiv n 2 ≤ n ∧ n ≤ 2 * cppDiv n 2 + 1 := by
  unfold cppDiv
  split <;> omega

theorem cppDiv_one_le (a b : Int) (hb : 0 < b) (hab : b ≤ a) : 1 ≤ cppDiv a b := by
  unfold cppDiv
  rw [if_pos (by omega : (0:Int) ≤ a)]
  exact (Int.le_ediv_iff_mul_le hb).mpr (by omega)

theorem ScrollBar.setMaximum_maximum (sb : ScrollBar) (mx : Int) :
    (sb.setMaximum mx).maximum = mx := by
  simp only [ScrollBar.setMaximum, ScrollBar.setRange]
  omega

theorem ScrollBar.setMaximum_minimum (sb : ScrollBar) (mx : Int) :
    (sb.setMaximum mx).minimum = min sb.minimum mx := rfl

theorem ScrollBar.setMaximum_value (sb : ScrollBar) (mx : Int)
    (h1 : sb.minimum ≤ sb.value) (h2 : sb.value ≤ mx) :
    (sb.setMaximum mx).value = sb.value := by
  simp only [ScrollBar.setMaximum, ScrollBar.setRange]
  omega

theorem ScrollBar.setValue_value (sb : ScrollBar) (v : Int)
    (h1 : sb.minimum ≤ v) (h2 : v ≤ sb.maximum) :
    (sb.setValue v).value = v := by
  simp only [ScrollBar.setValue]
  omega

theorem ScrollBar.setValue_minimum (sb : ScrollBar) (v : Int) :
    (sb.setValue v).minimum = sb.minimum := rfl

theorem ScrollBar.setValue_maximum (sb : ScrollBar) (v : Int) :
    (sb.setValue v).maximum = sb.maximum := rfl

theorem updateView_eq_some (st : PlotView) (r : Bool)
    (hz : st.zoomLevel ≠ 0) (hm : samplesPerLine st ≠ 0) :
    updateView st r = some (updateViewBody st r) := by
  simp [updateView, hz, hm]

theorem updateView_some (st : PlotView) (r : Bool) (st' : PlotView)
    (h : updateView st r = some st') : st' = updateViewBody st r := by
  unfold updateView at h
  split at h
  · exact absurd h (by simp)
  · exact (Option.some.inj h).symm

/-- Concrete state realising the §8 scenario: `count()=1000`,
`rate()=1000`, FFT size 64, zoom 1 (so 64 samples per column), viewport
width 10 columns, scroll position 0, pixel cursors at columns [2,5]. -/
def baseState : PlotView :=
  { hScroll := ⟨0, 1000, 0, 640, 6400⟩
    vScroll := ⟨0, 0, 0, 1, 10⟩
    viewRange := ⟨0, 640⟩
    selectedSamples := ⟨0, 0⟩
    cursorSelection := ⟨2, 5⟩
    cursorsEnabled := true
    cursorSegments := 1
    fftSize := 64
    zoomLevel := 1
    width := 10
    viewportHeight := 100
    plotHeights := []
    sampleCount := 1000
    sampleRate := 1000 }

/-- C1: for every valid state (scroll position, viewport width,
samples-per-column ≥ 1), `updateView(false)` produces a view range whose
minimum equals the horizontal scroll position and whose length equals
the viewport width in pixels times samples-per-column. -/
theorem plotview_c1 (st st' : PlotView)
    (hz : 1 ≤ st.zoomLevel) (hm : 1 ≤ samplesPerLine st)
    (h : updateView st false = some st') :
    st'.viewRange.minimum = st.hScroll.value ∧
    st'.viewRange.length = st.width * samplesPerLine st := by
  obtain rfl := updateView_some st false st' h
  exact ⟨rfl, by simp [updateViewBody, range_t.length]⟩

/-- C1 witness: the scenario state meets the hypotheses of `plotview_c1`
and its conclusion evaluates as stated. -/
theorem plotview_c1_witness :
    1 ≤ baseState.zoomLevel ∧ 1 ≤ samplesPerLine baseState ∧
    (updateViewBody baseState false).viewRange.minimum = baseState.hScroll.value ∧
    (updateViewBody baseState false).viewRange.length
      = baseState.width * samplesPerLine baseState :=
  ⟨by decide, by decide,
   (plotview_c1 baseState (updateViewBody baseState false) (by decide) (by decide)
     (updateView_eq_some baseState false (by decide) (by decide))).1,
   (plotview_c1 baseState (updateViewBody baseState false) (by decide) (by decide)
     (updateView_eq_some baseState false (by decide) (by decide))).2⟩

/-- C5: `cursorsMoved` sets each endpoint of the absolute selection to
`scroll + pixelColumn × samplesPerColumn` and reports the selection
duration as selection length over the source sample rate; in the
scenario state, `updateView(false)` yields view range [0, 640), the
absolute selection becomes [128, 320) and the reported time is 0.192
seconds (exact rational arithmetic stands in for the C++ float). -/
theorem plotview_c5 :
    (∀ st : PlotView,
      (cursorsMoved st).1.selectedSamples =
        ⟨st.hScroll.value + st.cursorSelection.minimum * samplesPerLine st,
         st.hScroll.value + st.cursorSelection.maximum * samplesPerLine st⟩ ∧
      (cursorsMoved st).2 =
        (((cursorsMoved st).1.selectedSamples.length : ℚ) / st.sampleRate)) ∧
    ((updateView baseState false).map fun s => s.viewRange) = some ⟨0, 640⟩ ∧
    (cursorsMoved baseState).1.selectedSamples = ⟨128, 320⟩ ∧
    (cursorsMoved baseState).2 = 0.192 := by
  refine ⟨fun st => ⟨rfl, rfl⟩, by decide, by decide, ?_⟩
  norm_num [cursorsMoved, baseState, samplesPerLine, cppDiv, range_t.length]

/-- C7: `invalidateEvent` resets the horizontal scroll bounds to exactly
[0, totalSampleCount] (for a non-negative count) and performs no
recentering: the view range and selection are untouched, and the scroll
position is unchanged whenever it lies within the old and new bounds. -/
theorem plotview_c7 (st : PlotView) (hc : 0 ≤ st.sampleCount) :
    (invalidateEvent st).hScroll.minimum = 0 ∧
    (invalidateEvent st).hScroll.maximum = st.sampleCount ∧
    (invalidateEvent st).viewRange = st.viewRange ∧
    (invalidateEvent st).selectedSamples = st.selectedSamples ∧
    (invalidateEvent st).fftSize = st.fftSize ∧
    (invalidateEvent st).zoomLevel = st.zoomLevel ∧
    (0 ≤ st.hScroll.value → st.hScroll.value ≤ st.sampleCount →
      st.hScroll.value ≤ st.hScroll.maximum →
      (invalidateEvent st).hScroll.value = st.hScroll.value) := by
  unfold invalidateEvent ScrollBar.setMinimum ScrollBar.setMaximum ScrollBar.setRange
  refine ⟨by simp <;> omega, by simp <;> omega, rfl, rfl, rfl, rfl, ?_⟩
  intro h1 h2 h3
  simp only [] <;> omega

/-- C7 witness: the scenario state meets the hypotheses of `plotview_c7`
and the horizontal bounds and scroll position behave as stated. -/
theorem plotview_c7_witness :
    0 ≤ baseState.sampleCount ∧
    (invalidateEvent baseState).hScroll.minimum = 0 ∧
    (invalidateEvent baseState).hScroll.maximum = baseState.sampleCount ∧
    (invalidateEvent baseState).viewRange = baseState.viewRange ∧
    (invalidateEvent baseState).hScroll.value = baseState.hScroll.value :=
  ⟨by decide, (plotview_c7 baseState (by decide)).1, (plotview_c7 baseState (by decide)).2.1,
   (plotview_c7 baseState (by decide)).2.2.1,
   (plotview_c7 baseState (by decide)).2.2.2.2.2.2 (by decide) (by decide) (by decide)⟩

/-- State exhibiting a stored absolute selection that is finer than one
samples-per-column unit (64 here): its endpoints are not multiples of
the column size above the scroll position. -/
def c9State : PlotView :=
  { baseState with selectedSamples := ⟨1, 65⟩, cursorSelection := ⟨0, 1⟩ }

/-- C9 counterexample: `setCursorSegments` is not a pure rendering
operation — on `c9State` it rewrites the stored absolute selection from
[1, 65) to [0, 64), because it re-derives it from the pixel cursors. -/
theorem plotview_c9_counterexample :
    (setCursorSegments c9State 3).1.selectedSamples ≠ c9State.selectedSamples := by
  decide

/-- C9 (amended): `setCursorSegments` changes only the overlay segment
count and re-derives the absolute selection from the pixel cursors as
`scroll + pixelColumn × samplesPerColumn` per endpoint (also re-emitting
the selection duration); the view range, zoom parameters and scroll
positions are unchanged, and the stored absolute selection is unchanged
whenever it already agrees with the re-derived value. -/
theorem plotview_c9_amended (st : PlotView) (n : Int) :
    (setCursorSegments st n).1.viewRange = st.viewRange ∧
    (setCursorSegments st n).1.hScroll = st.hScroll ∧
    (setCursorSegments st n).1.vScroll = st.vScroll ∧
    (setCursorSegments st n).1.fftSize = st.fftSize ∧
    (setCursorSegments st n).1.zoomLevel = st.zoomLevel ∧
    (setCursorSegments st n).1.cursorSegments = n ∧
    (setCursorSegments st n).1.selectedSamples =
      ⟨st.hScroll.value + st.cursorSelection.minimum * samplesPerLine st,
       st.hScroll.value + st.cursorSelection.maximum * samplesPerLine st⟩ ∧
    (st.selectedSamples =
        ⟨st.hScroll.value + st.cursorSelection.minimum * samplesPerLine st,
         st.hScroll.value + st.cursorSelection.maximum * samplesPerLine st⟩ →
      (setCursorSegments st n).1.selectedSamples = st.selectedSamples) := by
  refine ⟨rfl, rfl, rfl, rfl, rfl, rfl, rfl, ?_⟩
  intro h
  rw [h]
  rfl

/-- State whose stored absolute selection is already consistent with its
pixel cursors under 64 samples per column. -/
def c9wState : PlotView :=
  { baseState with selectedSamples := ⟨128, 320⟩ }

/-- C9 witness: on a state whose selection agrees with its pixel
cursors, `setCursorSegments` leaves the stored selection unchanged. -/
theorem plotview_c9_witness :
    c9wState.selectedSamples =
      ⟨c9wState.hScroll.value + c9wState.cursorSelection.minimum * samplesPerLine c9wState,
       c9wState.hScroll.value + c9wState.cursorSelection.maximum * samplesPerLine c9wState⟩ ∧
    (setCursorSegments c9wState 3).1.selectedSamples = c9wState.selectedSamples :=
  ⟨by decide, (plotview_c9_amended c9wState 3).2.2.2.2.2.2.2 (by decide)⟩

/-- C10: `enableCursors(true)` initialises the pixel selection to the
middle third of the viewport — minimum = left + width/3 and maximum =
right − width/3 with Qt's `rect().right() = width − 1` and C++ integer
division by 3 — while `enableCursors(false)` only clears the enabled
flag and leaves everything else, the stored selection included,
unchanged. -/
theorem plotview_c10 (st : PlotView) (b : Bool) :
    (enableCursors st true).cursorSelection.minimum = cppDiv st.width 3 ∧
    (enableCursors st true).cursorSelection.maximum = (st.width - 1) - cppDiv st.width 3 ∧
    (enableCursors st b).cursorsEnabled = b ∧
    enableCursors st false = { st with cursorsEnabled := false } := by
  refine ⟨by simp [enableCursors], by simp [enableCursors], ?_, rfl⟩
  cases b <;> simp [enableCursors]

/-- State with fewer samples (10) than one viewport of columns (20
columns at one sample per column). -/
def c2State : PlotView :=
  { baseState with sampleCount := 10, width := 20, fftSize := 1, zoomLevel := 1 }

/-- C2 counterexample: with 10 total samples, a 20-column viewport and
one sample per column, `updateView` sets the horizontal scrollbar
maximum to −9 — negative, hence not `max(0, −9) = 0` and showing the
claimed non-negativity false — because Qt's `setMaximum` lowers the
stored minimum (here also to −9) instead of clamping at it. -/
theorem plotview_c2_counterexample :
    ((updateView c2State false).map fun s => s.hScroll.maximum) = some (-9) ∧
    ((updateView c2State false).map fun s => s.hScroll.minimum) = some (-9) ∧
    ¬ (0:Int) ≤ -9 ∧
    max 0 (c2State.sampleCount - (c2State.width - 1) * samplesPerLine c2State) ≠ (-9 : Int) := by
  refine ⟨by decide, by decide, by decide, by decide⟩

/-- C2 (amended): after every `updateView` call the horizontal scrollbar
maximum equals `totalSampleCount − (viewportWidthColumns − 1) ×
samplesPerColumn` exactly — Qt lowers the stored minimum instead of
clamping the maximum at it, so the maximum can be negative — and it
never exceeds the total sample count provided the viewport is at least
one column wide and samples-per-column is at least 1. -/
theorem plotview_c2_amended (st st' : PlotView) (b : Bool)
    (h : updateView st b = some st') :
    st'.hScroll.maximum = st.sampleCount - (st.width - 1) * samplesPerLine st ∧
    st'.hScroll.minimum =
      min st.hScroll.minimum (st.sampleCount - (st.width - 1) * samplesPerLine st) ∧
    (1 ≤ st.width → 1 ≤ samplesPerLine st → st'.hScroll.maximum ≤ st.sampleCount) := by
  obtain rfl := updateView_some st b st' h
  have hsc : (updateViewBody st b).hScroll
      = (if b then
          st.hScroll.setValue (st.hScroll.value +
            cppDiv (st.viewRange.length -
              (range_t.length ⟨st.hScroll.value,
                st.hScroll.value + st.width * samplesPerLine st⟩)) 2)
         else st.hScroll).setMaximum
          (st.sampleCount - (st.width - 1) * samplesPerLine st) := by
    cases b <;> rfl
  refine ⟨?_, ?_, ?_⟩
  · rw [hsc, ScrollBar.setMaximum_maximum]
  · rw [hsc, ScrollBar.setMaximum_minimum]
    cases b <;> rfl
  · intro hw hm
    rw [hsc, ScrollBar.setMaximum_maximum]
    have hp : 0 ≤ (st.width - 1) * samplesPerLine st := mul_nonneg (by omega) (by omega)
    linarith

/-- C2 witness: on the scenario state the amended scrollbar-maximum
formula evaluates and stays below the total sample count. -/
theorem plotview_c2_witness :
    1 ≤ baseState.width ∧ 1 ≤ samplesPerLine baseState ∧
    (updateViewBody baseState false).hScroll.maximum
      = baseState.sampleCount - (baseState.width - 1) * samplesPerLine baseState ∧
    (updateViewBody baseState false).hScroll.maximum ≤ baseState.sampleCount :=
  ⟨by decide, by decide,
   (plotview_c2_amended baseState _ false
     (updateView_eq_some baseState false (by decide) (by decide))).1,
   (plotview_c2_amended baseState _ false
     (updateView_eq_some baseState false (by decide) (by decide))).2.2
     (by decide) (by decide)⟩

/-- C8 counterexample: `setFFTAndZoom` does not fail fast on invalid
configuration — with zoom −1 (≤ 0) and size 64 the call completes
normally (no assertion, no fault, samples-per-column −64) — and under
the claim's own precondition zoom ≥ 1, size ≥ 1 an error branch is still
reachable: size 1, zoom 2 makes samples-per-column 0 and `updateView`
divides by zero. -/
theorem plotview_c8_counterexample :
    (setFFTAndZoom baseState 64 (-1)).isSome = true ∧
    setFFTAndZoom baseState 1 2 = none := by
  refine ⟨by decide, by decide⟩

/-- C8 (amended): the only fail-fast behaviour is the C++ division by
zero: with zoom = 0 the call faults, and whenever zoom ≥ 1 and
size ≥ zoom (so samples-per-column ≥ 1) every division has a nonzero
divisor, every error branch is unreachable and the call completes;
other degenerate configurations are accepted silently. -/
theorem plotview_c8_amended (st : PlotView) (size zoom : Int) :
    (zoom = 0 → setFFTAndZoom st size zoom = none) ∧
    (1 ≤ zoom → zoom ≤ size → (setFFTAndZoom st size zoom).isSome = true) := by
  constructor
  · intro h
    simp [setFFTAndZoom, h]
  · intro h1 h2
    have hm : 1 ≤ cppDiv size zoom := cppDiv_one_le size zoom (by omega) h2
    have hz : ¬ zoom = 0 := by omega
    simp only [setFFTAndZoom, updateView, samplesPerLine, if_neg hz]
    rw [if_neg (by push_neg; exact ⟨hz, by omega⟩)]
    rfl

/-- C8 witness: zoom 0 faults, while FFT size 64 at zoom 1 — a valid
configuration — completes. -/
theorem plotview_c8_witness :
    setFFTAndZoom baseState 64 0 = none ∧
    (1:Int) ≤ 1 ∧ (1:Int) ≤ 64 ∧ (setFFTAndZoom baseState 64 1).isSome = true :=
  ⟨(plotview_c8_amended baseState 64 0).1 rfl, by decide, by decide,
   (plotview_c8_amended baseState 64 1).2 (by decide) (by decide)⟩

theorem dispatchPlots_some_iff (ps : List PlotStub) :
    ∀ (y a : Int) (i : Nat) (ly : Int),
      dispatchPlots ps y a = some (i, ly) ↔
        (i < ps.length ∧ ly = y - a - cumHeight ps i ∧
         (ps.getD i dummyPlot).consumes ly = true ∧
         ∀ j, j < i → (ps.getD j dummyPlot).consumes (y - a - cumHeight ps j) = false) := by
  induction ps with
  | nil =>
    intro y a i ly
    simp [dispatchPlots]
  | cons p rest ih =>
    intro y a i ly
    by_cases hc : p.consumes (y - a)
    · simp only [dispatchPlots, if_pos hc]
      constructor
      · intro h
        obtain ⟨h1, h2⟩ := Prod.mk.injEq _ _ _ _ ▸ Option.some.inj h
        subst h1
        subst h2
        refine ⟨by simp, by simp [cumHeight_zero], by simpa [cumHeight_zero] using hc, ?_⟩
        intro j hj
        omega
      · rintro ⟨h1, h2, h3, h4⟩
        cases i with
        | zero =>
          simp only [cumHeight_zero] at h2
          rw [show ly = y - a by omega]
        | succ i0 =>
          have := h4 0 (Nat.succ_pos i0)
          simp only [cumHeight_zero, List.getD_cons_zero] at this
          rw [show y - a - 0 = y - a by omega] at this
          rw [this] at hc
          exact absurd hc (by simp)
    · simp only [dispatchPlots, if_neg hc]
      constructor
      · intro h
        rw [Option.map_eq_some'] at h
        obtain ⟨⟨i0, ly0⟩, hrec, heq⟩ := h
        simp only [Prod.mk.injEq] at heq
        obtain ⟨hi, hly⟩ := heq
        subst hi
        subst hly
        obtain ⟨g1, g2, g3, g4⟩ := (ih y (a + p.height) i0 ly0).mp hrec
        refine ⟨by simpa using g1, ?_, by simpa using g3, ?_⟩
        · rw [cumHeight_cons_succ]
          omega
        · intro j hj
          cases j with
          | zero =>
            simp only [cumHeight_zero, List.getD_cons_zero]
            rw [show y - a - 0 = y - a by omega]
            simpa using hc
          | succ j0 =>
            have := g4 j0 (by omega)
            rw [cumHeight_cons_succ]
            simpa [show y - a - (p.height + cumHeight rest j0)
              = y - (a + p.height) - cumHeight rest j0 by omega] using this
      · rintro ⟨h1, h2, h3, h4⟩
        cases i with
        | zero =>
          simp only [cumHeight_zero, List.getD_cons_zero] at h2 h3
          rw [show y - a - 0 = y - a by omega] at h2
          rw [← h2] at hc
          exact absurd h3 (by simp [hc])
        | succ i0 =>
          have hrec : dispatchPlots rest y (a + p.height) = some (i0, ly) := by
            refine (ih y (a + p.height) i0 ly).mpr ⟨by simpa using h1, ?_, by simpa using h3, ?_⟩
            · rw [cumHeight_cons_succ] at h2
              omega
            · intro j hj
              have := h4 (j + 1) (by omega)
              rw [cumHeight_cons_succ] at this
              simpa [show y - (a + p.height) - cumHeight rest j
                = y - a - (p.height + cumHeight rest j) by omega] using this
          rw [hrec]
          rfl

theorem dispatchPlots_none_iff (ps : List PlotStub) :
    ∀ (y a : Int),
      dispatchPlots ps y a = none ↔
        ∀ j, j < ps.length →
          (ps.getD j dummyPlot).consumes (y - a - cumHeight ps j) = false := by
  induction ps with
  | nil =>
    intro y a
    simp [dispatchPlots]
  | cons p rest ih =>
    intro y a
    by_cases hc : p.consumes (y - a)
    · simp only [dispatchPlots, if_pos hc]
      constructor
      · intro h
        exact absurd h (by simp)
      · intro h
        have := h 0 (Nat.succ_pos _)
        simp only [cumHeight_zero, List.getD_cons_zero] at this
        rw [show y - a - 0 = y - a by omega] at this
        rw [this] at hc
        exact absurd hc (by simp)
    · simp only [dispatchPlots, if_neg hc]
      rw [Option.map_eq_none']
      rw [ih y (a + p.height)]
      constructor
      · intro h j hj
        cases j with
        | zero =>
          simp only [cumHeight_zero, List.getD_cons_zero]
          rw [show y - a - 0 = y - a by omega]
          simpa using hc
        | succ j0 =>
          have := h j0 (by simpa using hj)
          rw [cumHeight_cons_succ]
          simpa [show y - a - (p.height + cumHeight rest j0)
            = y - (a + p.height) - cumHeight rest j0 by omega] using this
      · intro h j hj
        have := h (j + 1) (by simp only [List.length_cons]; omega)
        rw [cumHeight_cons_succ] at this
        simpa [show y - (a + p.height) - cumHeight rest j
          = y - a - (p.height + cumHeight rest j) by omega] using this

/-- Single plot of height 40 that consumes exactly events whose local
vertical coordinate is 30. -/
def c6Plot : PlotStub := ⟨40, fun ly => ly == 30⟩

/-- C6 counterexample: with vertical scroll 10 and a pointer event at
viewport coordinate y = 20, the code translates the event to local
coordinate 20 + 10 = 30 (the scroll is added) and the plot consumes it,
whereas the claimed rule (subtract the scroll) would translate it to 10
and leave it unconsumed. -/
theorem plotview_c6_counterexample :
    eventFilterMouse (fun _ => false) 10 [c6Plot] 20 = .plot 0 30 ∧
    eventFilterMouseClaimed (fun _ => false) 10 [c6Plot] 20 = .unconsumed ∧
    eventFilterMouse (fun _ => false) 10 [c6Plot] 20 ≠
      eventFilterMouseClaimed (fun _ => false) 10 [c6Plot] 20 := by
  refine ⟨by decide, by decide, by decide⟩

/-- C6 (amended): a pointer press/move/release is offered first to the
overlay; if the overlay does not consume it, it is offered to each plot
in stacking order, stopping at the first consumer, with the vertical
coordinate translated into the plot's local space by subtracting the
cumulative height of preceding plots and ADDING the current vertical
scroll: plot `i` sees `y + verticalScroll − cumHeight(i)`. -/
theorem plotview_c6_amended (ov : Int → Bool) (v y : Int) (ps : List PlotStub)
    (i : Nat) (ly : Int) :
    (ov y = true → eventFilterMouse ov v ps y = .overlay) ∧
    (ov y = false →
      (eventFilterMouse ov v ps y = .plot i ly ↔
        (i < ps.length ∧ ly = y + v - cumHeight ps i ∧
         (ps.getD i dummyPlot).consumes ly = true ∧
         ∀ j, j < i →
           (ps.getD j dummyPlot).consumes (y + v - cumHeight ps j) = false))) ∧
    (ov y = false →
      (eventFilterMouse ov v ps y = .unconsumed ↔
        ∀ j, j < ps.length →
          (ps.getD j dummyPlot).consumes (y + v - cumHeight ps j) = false)) := by
  refine ⟨?_, ?_, ?_⟩
  · intro h
    simp [eventFilterMouse, h]
  · intro h
    simp only [eventFilterMouse, h, Bool.false_eq_true, if_false]
    constructor
    · intro he
      cases hd : dispatchPlots ps y (-v) with
      | none => rw [hd] at he; exact absurd he (by simp)
      | some q =>
        obtain ⟨i0, ly0⟩ := q
        rw [hd] at he
        simp only [MouseRoute.plot.injEq] at he
        obtain ⟨hi, hly⟩ := he
        obtain ⟨g1, g2, g3, g4⟩ := (dispatchPlots_some_iff ps y (-v) i0 ly0).mp hd
        subst hi
        subst hly
        refine ⟨g1, by omega, g3, ?_⟩
        intro j hj
        have := g4 j hj
        rwa [show y - -v - cumHeight ps j = y + v - cumHeight ps j by omega] at this
    · rintro ⟨h1, h2, h3, h4⟩
      have hd : dispatchPlots ps y (-v) = some (i, ly) := by
        refine (dispatchPlots_some_iff ps y (-v) i ly).mpr ⟨h1, by omega, h3, ?_⟩
        intro j hj
        have := h4 j hj
        rwa [show y + v - cumHeight ps j = y - -v - cumHeight ps j by omega] at this
      rw [hd]
  · intro h
    simp only [eventFilterMouse, h, Bool.false_eq_true, if_false]
    constructor
    · intro he
      cases hd : dispatchPlots ps y (-v) with
      | none =>
        intro j hj
        have := (dispatchPlots_none_iff ps y (-v)).mp hd j hj
        rwa [show y - -v - cumHeight ps j = y + v - cumHeight ps j by omega] at this
      | some q =>
        obtain ⟨i0, ly0⟩ := q
        rw [hd] at he
        exact absurd he (by simp)
    · intro hall
      have hd : dispatchPlots ps y (-v) = none := by
        refine (dispatchPlots_none_iff ps y (-v)).mpr ?_
        intro j hj
        have := hall j hj
        rwa [show y + v - cumHeight ps j = y - -v - cumHeight ps j by omega] at this
      rw [hd]

/-- State just after a zoom-out from 1 to 64 samples per column at
scroll position 0: the view range still reflects the old zoom
([0, 10) over a 10-column viewport) while `samplesPerLine` is now 64. -/
def c3State : PlotView :=
  { baseState with viewRange := ⟨0, 10⟩, hScroll := ⟨0, 990, 0, 640, 6400⟩ }

/-- C3 counterexample: on `c3State`, `updateView(true)` clamps the
recentering shift (−315) at the scrollbar minimum 0, so the sample under
the viewport's pixel midpoint lands 315 samples away from the old view
center — far more than one samples-per-column unit (64). -/
theorem plotview_c3_counterexample :
    ((updateView c3State true).map fun s => |midSample s - c3State.viewRange.center|)
      = some 315 ∧
    ¬ (315 : Int) ≤ samplesPerLine c3State := by
  refine ⟨by decide, by decide⟩

theorem recenter_bound (v w m L1 : Int) (hm : 1 ≤ m) (hw : 0 ≤ w) :
    |(v + cppDiv (L1 - w * m) 2 + cppDiv w 2 * m) - (v + cppDiv L1 2)| ≤ m := by
  obtain ⟨d, hd⟩ : ∃ d, d = cppDiv (L1 - w * m) 2 := ⟨_, rfl⟩
  obtain ⟨q, hq⟩ : ∃ q, q = cppDiv w 2 := ⟨_, rfl⟩
  obtain ⟨t, ht⟩ : ∃ t, t = cppDiv L1 2 := ⟨_, rfl⟩
  rw [← hd, ← hq, ← ht]
  have hdb := cppDiv_two_le (L1 - w * m)
  rw [← hd] at hdb
  have htb := cppDiv_two_le L1
  rw [← ht] at htb
  have hqb := cppDiv_two_of_nonneg w hw
  rw [← hq] at hqb
  have hprod1 : 0 ≤ (w - 2 * q) * m := mul_nonneg (by omega) (by omega)
  have hprod2 : (w - 2 * q) * m ≤ 1 * m := mul_le_mul_of_nonneg_right (by omega) (by omega)
  have hexp : (w - 2 * q) * m = w * m - 2 * (q * m) := by ring
  have hsimp : (v + d + q * m) - (v + t) = d + q * m - t := by ring
  rw [hsimp, abs_le]
  obtain ⟨hdb1, hdb2⟩ := hdb
  obtain ⟨htb1, htb2⟩ := htb
  constructor
  · by_contra hcon
    push_neg at hcon
    have hcon' : d + q * m - t + 1 ≤ -m := Int.lt_iff_add_one_le.mp hcon
    linarith
  · by_contra hcon
    push_neg at hcon
    have hcon' : m + 1 ≤ d + q * m - t := Int.lt_iff_add_one_le.mp hcon
    linarith

/-- C3 (amended): `updateView(true)` increments the scroll position by
`(oldViewRangeLength − newViewRangeLength) / 2`, but Qt bounds the value
at the scrollbar limits on assignment; whenever the incremented position
lies within the scrollbar bounds (old value bound and new maximum) —
i.e. no reclamping takes place — the sample at the horizontal pixel
midpoint of the viewport stays within one samples-per-column unit of the
old view-range center. At the bounds the recentering law fails, as the
counterexample shows. -/
theorem plotview_c3_amended (st st' : PlotView)
    (hz : 1 ≤ st.zoomLevel) (hm : 1 ≤ samplesPerLine st) (hw : 0 ≤ st.width)
    (hsync : st.viewRange.minimum = st.hScroll.value)
    (hlo : st.hScroll.minimum ≤ st.hScroll.value +
      cppDiv (st.viewRange.length - st.width * samplesPerLine st) 2)
    (hhi : st.hScroll.value +
      cppDiv (st.viewRange.length - st.width * samplesPerLine st) 2 ≤ st.hScroll.maximum)
    (hmax : st.hScroll.value +
      cppDiv (st.viewRange.length - st.width * samplesPerLine st) 2
        ≤ st.sampleCount - (st.width - 1) * samplesPerLine st)
    (h : updateView st true = some st') :
    st'.hScroll.value = st.hScroll.value +
      cppDiv (st.viewRange.length - st.width * samplesPerLine st) 2 ∧
    |midSample st' - st.viewRange.center| ≤ samplesPerLine st := by
  obtain rfl := updateView_some st true st' h
  have hsc : (updateViewBody st true).hScroll
      = (st.hScroll.setValue (st.hScroll.value +
          cppDiv (st.viewRange.length -
            (range_t.length ⟨st.hScroll.value,
              st.hScroll.value + st.width * samplesPerLine st⟩)) 2)).setMaximum
          (st.sampleCount - (st.width - 1) * samplesPerLine st) := rfl
  have hlen : range_t.length ⟨st.hScroll.value,
      st.hScroll.value + st.width * samplesPerLine st⟩ = st.width * samplesPerLine st := by
    simp [range_t.length]
  rw [hlen] at hsc
  have hv1 : (st.hScroll.setValue (st.hScroll.value +
      cppDiv (st.viewRange.length - st.width * samplesPerLine st) 2)).value
      = st.hScroll.value +
        cppDiv (st.viewRange.length - st.width * samplesPerLine st) 2 :=
    ScrollBar.setValue_value _ _ hlo hhi
  have hval : (updateViewBody st true).hScroll.value
      = st.hScroll.value + cppDiv (st.viewRange.length - st.width * samplesPerLine st) 2 := by
    rw [hsc]
    rw [ScrollBar.setMaximum_value _ _ (by rw [ScrollBar.setValue_minimum, hv1]; exact hlo)
      (by rw [hv1]; exact hmax)]
    exact hv1
  refine ⟨hval, ?_⟩
  have hmid : midSample (updateViewBody st true)
      = st.hScroll.value + cppDiv (st.viewRange.length - st.width * samplesPerLine st) 2
        + cppDiv st.width 2 * samplesPerLine st := by
    unfold midSample
    rw [hval]
    rfl
  have hcenter : st.viewRange.center = st.hScroll.value + cppDiv st.viewRange.length 2 := by
    unfold range_t.center
    rw [hsync]
  rw [hmid, hcenter]
  exact recenter_bound st.hScroll.value st.width (samplesPerLine st) st.viewRange.length hm hw

/-- State for the C3 witness: zoom-in from 1 to 2 samples per column in
the middle of a long stream, where no reclamping occurs. -/
def c3wState : PlotView :=
  { baseState with hScroll := ⟨0, 10000, 500, 640, 6400⟩, viewRange := ⟨500, 510⟩,
                   fftSize := 8, zoomLevel := 4, sampleCount := 10000 }

/-- C3 witness: away from the scrollbar bounds the recentering shift is
applied exactly and the midpoint sample stays within one
samples-per-column unit (here 2) of the old center. -/
theorem plotview_c3_witness :
    1 ≤ samplesPerLine c3wState ∧ 0 ≤ c3wState.width ∧
    c3wState.viewRange.minimum = c3wState.hScroll.value ∧
    (updateViewBody c3wState true).hScroll.value = c3wState.hScroll.value +
      cppDiv (c3wState.viewRange.length - c3wState.width * samplesPerLine c3wState) 2 ∧
    |midSample (updateViewBody c3wState true) - c3wState.viewRange.center|
      ≤ samplesPerLine c3wState :=
  ⟨by decide, by decide, by decide,
   (plotview_c3_amended c3wState _ (by decide) (by decide) (by decide) (by decide)
     (by decide) (by decide) (by decide)
     (updateView_eq_some c3wState true (by decide) (by decide))).1,
   (plotview_c3_amended c3wState _ (by decide) (by decide) (by decide) (by decide)
     (by decide) (by decide) (by decide)
     (updateView_eq_some c3wState true (by decide) (by decide))).2⟩

/-- C4: with a fixed view state — samples-per-column ≥ 1 and a scroll
position that the scrollbar-maximum update does not re-bound —
converting the stored absolute selection to pixel cursors (as
`updateView` does) and back to an absolute selection (as `cursorsMoved`
does) reproduces each endpoint up to one samples-per-column unit. -/
theorem plotview_c4 (st st' : PlotView)
    (hz : 1 ≤ st.zoomLevel) (hm : 1 ≤ samplesPerLine st)
    (hlo : st.hScroll.minimum ≤ st.hScroll.value)
    (hhi : st.hScroll.value ≤ st.sampleCount - (st.width - 1) * samplesPerLine st)
    (h : updateView st false = some st') :
    |(cursorsMoved st').1.selectedSamples.minimum - st.selectedSamples.minimum|
      ≤ samplesPerLine st ∧
    |(cursorsMoved st').1.selectedSamples.maximum - st.selectedSamples.maximum|
      ≤ samplesPerLine st := by
  obtain rfl := updateView_some st false st' h
  have hv2 : (st.hScroll.setMaximum
      (st.sampleCount - (st.width - 1) * samplesPerLine st)).value = st.hScroll.value :=
    ScrollBar.setMaximum_value _ _ hlo hhi
  have hselmin : (cursorsMoved (updateViewBody st false)).1.selectedSamples.minimum
      = st.hScroll.value +
        cppDiv (st.selectedSamples.minimum - st.hScroll.value) (samplesPerLine st)
          * samplesPerLine st := by
    show (updateViewBody st false).hScroll.value +
        (updateViewBody st false).cursorSelection.minimum
          * samplesPerLine (updateViewBody st false) = _
    have h1 : (updateViewBody st false).hScroll.value = st.hScroll.value := hv2
    have h2 : (updateViewBody st false).cursorSelection.minimum
        = cppDiv (st.selectedSamples.minimum -
            (st.hScroll.setMaximum
              (st.sampleCount - (st.width - 1) * samplesPerLine st)).value)
            (samplesPerLine st) := rfl
    rw [h1, h2, hv2]
    rfl
  have hselmax : (cursorsMoved (updateViewBody st false)).1.selectedSamples.maximum
      = st.hScroll.value +
        cppDiv (st.selectedSamples.maximum - st.hScroll.value) (samplesPerLine st)
          * samplesPerLine st := by
    show (updateViewBody st false).hScroll.value +
        (updateViewBody st false).cursorSelection.maximum
          * samplesPerLine (updateViewBody st false) = _
    have h1 : (updateViewBody st false).hScroll.value = st.hScroll.value := hv2
    have h2 : (updateViewBody st false).cursorSelection.maximum
        = cppDiv (st.selectedSamples.maximum -
            (st.hScroll.setMaximum
              (st.sampleCount - (st.width - 1) * samplesPerLine st)).value)
            (samplesPerLine st) := rfl
    rw [h1, h2, hv2]
    rfl
  constructor
  · rw [hselmin]
    have hb := cppDiv_mul_bound (st.selectedSamples.minimum - st.hScroll.value)
      (samplesPerLine st) (by omega)
    have heq : st.hScroll.value +
        cppDiv (st.selectedSamples.minimum - st.hScroll.value) (samplesPerLine st)
          * samplesPerLine st - st.selectedSamples.minimum
        = cppDiv (st.selectedSamples.minimum - st.hScroll.value) (samplesPerLine st)
            * samplesPerLine st - (st.selectedSamples.minimum - st.hScroll.value) := by
      ring
    rw [heq]
    exact le_of_lt hb
  · rw [hselmax]
    have hb := cppDiv_mul_bound (st.selectedSamples.maximum - st.hScroll.value)
      (samplesPerLine st) (by omega)
    have heq : st.hScroll.value +
        cppDiv (st.selectedSamples.maximum - st.hScroll.value) (samplesPerLine st)
          * samplesPerLine st - st.selectedSamples.maximum
        = cppDiv (st.selectedSamples.maximum - st.hScroll.value) (samplesPerLine st)
            * samplesPerLine st - (st.selectedSamples.maximum - st.hScroll.value) := by
      ring
    rw [heq]
    exact le_of_lt hb

/-- State for the C4 witness: a stored absolute selection [130, 320)
that is not aligned to the 64-sample column grid. -/
def c4wState : PlotView :=
  { baseState with selectedSamples := ⟨130, 320⟩ }

/-- C4 witness: the round trip turns [130, 320) into [128, 320), moving
each endpoint by at most one samples-per-column unit (64). -/
theorem plotview_c4_witness :
    1 ≤ samplesPerLine c4wState ∧
    c4wState.hScroll.minimum ≤ c4wState.hScroll.value ∧
    |(cursorsMoved (updateViewBody c4wState false)).1.selectedSamples.minimum
      - c4wState.selectedSamples.minimum| ≤ samplesPerLine c4wState ∧
    |(cursorsMoved (updateViewBody c4wState false)).1.selectedSamples.maximum
      - c4wState.selectedSamples.maximum| ≤ samplesPerLine c4wState :=
  ⟨by decide, by decide,
   (plotview_c4 c4wState _ (by decide) (by decide) (by decide) (by decide)
     (updateView_eq_some c4wState false (by decide) (by decide))).1,
   (plotview_c4 c4wState _ (by decide) (by decide) (by decide) (by decide)
     (updateView_eq_some c4wState false (by decide) (by decide))).2⟩

/-- C6 witness: with the overlay consuming, routing stops at the
overlay; with the overlay declining, the plot that consumes local
coordinate 30 receives the event at y + vScroll = 20 + 10. -/
theorem plotview_c6_witness :
    eventFilterMouse (fun _ => true) 10 [c6Plot] 20 = .overlay ∧
    eventFilterMouse (fun _ => false) 10 [c6Plot] 20 = .plot 0 30 :=
  ⟨(plotview_c6_amended (fun _ => true) 10 20 [c6Plot] 0 30).1 rfl,
   ((plotview_c6_amended (fun _ => false) 10 20 [c6Plot] 0 30).2.1 rfl).mpr
     ⟨by decide, by decide, by decide, fun j hj => absurd hj (by omega)⟩⟩
